import Mathlib

/-!
Shallow embedding of the ban reconciliation logic of the GlobalBan cog
(src/globalban/core.py): the three reconciler operations update_gbs
(apply roster), remove_gbs_user (remove entry) and remove_gbs_guild
(remove community), together with the configuration-store state they
read and write and the provider calls they issue.

The configuration store keys the global roster by the decimal string of
the user id, while guild banlists mix integer entries (written by the
optin snapshot) with string entries (appended by update_gbs).  The type
Val records which representation a stored banlist element uses, since
Python equality distinguishes them and the source checks membership with
both int and str operands.

Every provider interaction is recorded as an Event so that theorems can
speak about which API calls an operation issues.
-/

namespace GlobalBan

/-- A value stored in a guild banlist.  Val.int n is the Python integer n
(written by the optin snapshot); Val.str n is the Python string of the
decimal digits of n (appended by update_gbs at line 213 of core.py).
Python equality never identifies an int with a str, which the derived
DecidableEq mirrors by keeping the constructors distinct. -/
inductive Val where
  | int (n : Nat)
  | str (n : Nat)
deriving DecidableEq, Repr

/-- True when the stored value denotes the user identifier u, in either
representation. -/
def valDenotes (u : Nat) : Val → Bool
  | Val.int m => u == m
  | Val.str m => u == m

/-- Whether the identifier u occurs in a stored banlist (in either
representation). -/
def occursId (u : Nat) (l : List Val) : Bool :=
  l.any (valDenotes u)

/-- Number of occurrences of the identifier u in a stored banlist. -/
def countId (u : Nat) (l : List Val) : Nat :=
  l.countP (valDenotes u)

/-- Provider interactions and log writes performed by the reconciler.
bansCall is an attempt to enumerate the bans of a guild; banCall and
unbanCall are ban and unban API calls (recorded even when the provider
answers Forbidden or NotFound, because the call was issued); audit is a
modlog case; logExc and logWarn are the two log statements. -/
inductive Event where
  | bansCall (gid : Nat)
  | banCall (gid uid : Nat) (reason : String) (byObject : Bool)
  | unbanCall (gid uid : Nat)
  | audit (actionType : String) (gid : Nat) (user : Option Nat) (reason : String)
  | logExc (gid : Nat)
  | logWarn (gid uid : Nat)
deriving DecidableEq, Repr

/-- The guild id an event concerns. -/
def evGid : Event → Nat
  | Event.bansCall g => g
  | Event.banCall g _ _ _ => g
  | Event.unbanCall g _ => g
  | Event.audit _ g _ _ => g
  | Event.logExc g => g
  | Event.logWarn g _ => g

/-- True exactly on ban API calls. -/
def isBanCall : Event → Bool
  | Event.banCall _ _ _ _ => true
  | _ => false

/-- Number of ban API calls in a trace. -/
def countBanCalls (tr : List Event) : Nat :=
  tr.countP isBanCall

/-- Provider-side state of one guild: its current bans, its members, and
which failure modes its API calls exhibit.  bansFail means enumerating
bans raises (AttributeError or Forbidden); banForbidden and banNotFound
list users whose ban call raises Forbidden or NotFound; unbanForbidden
lists users whose unban call raises Forbidden. -/
structure GuildState where
  bans : List Nat
  members : List Nat
  bansFail : Bool
  banForbidden : List Nat
  banNotFound : List Nat
  unbanForbidden : List Nat
deriving DecidableEq, Repr

/-- The provider world: association of guild ids to guild states.
get_guild returns none for ids absent from this list. -/
abbrev World := List (Nat × GuildState)

/-- The persisted configuration: the global roster (keys are the decimal
strings of user ids, modelled by the numbers themselves since the cog
always converts with str and int), the opted guild id list, and the per
guild banlists. -/
structure Config where
  banned : List (Nat × String)
  opted : List Nat
  banlists : List (Nat × List Val)
deriving DecidableEq, Repr

/-- Association list lookup by guild id. -/
def lookupA {α : Type} : List (Nat × α) → Nat → Option α
  | [], _ => none
  | (k, v) :: rest, gid => if k = gid then some v else lookupA rest gid

/-- Association list update; inserts at the end when the key is absent
(the configuration store creates the scope on first write). -/
def setA {α : Type} : List (Nat × α) → Nat → α → List (Nat × α)
  | [], gid, v => [(gid, v)]
  | (k, v0) :: rest, gid, v =>
    if k = gid then (gid, v) :: rest else (k, v0) :: setA rest gid v

/-- The stored banlist of a guild; the register_guild default is the
empty list. -/
def getBanlist (cfg : Config) (gid : Nat) : List Val :=
  (lookupA cfg.banlists gid).getD []

/-- Write the stored banlist of a guild. -/
def setBanlist (cfg : Config) (gid : Nat) (bl : List Val) : Config :=
  { cfg with banlists := setA cfg.banlists gid bl }

/-- The keys of the global roster (as user identifiers). -/
def bannedKeys (cfg : Config) : List Nat :=
  cfg.banned.map Prod.fst

/-- The reason string attached to every global ban, from the f-string at
lines 225, 233 and 243 of core.py. -/
def banReason (initiator reason : String) : String :=
  "Global ban initiated by " ++ initiator ++ " with the reason: " ++ reason

/-- The modlog action type used by update_gbs. -/
def globalbanAct : String :=
  "globalban"

/-- Result of running one reconciler operation: the configuration and
world after the run, and the trace of provider calls and log writes. -/
structure RunResult where
  config : Config
  world : World
  trace : List Event
deriving DecidableEq, Repr

/-- Python exceptions that escape remove_gbs_guild. -/
inductive PyErr where
  | attributeError
  | forbidden
deriving DecidableEq, Repr

/-- One iteration of the inner roster loop of update_gbs (lines 207-247
of core.py) for a fixed guild: enumerate bans (bansCall; on failure log
and move to the next roster entry); if the user is already banned, add
the string form of the id to the banlist unless the integer form is
present; otherwise ban by member object or by bare id, where NotFound on
a bare-id ban is swallowed (and the modlog case is still written),
Forbidden is logged as a warning, and success appends the user to the
guild bans and writes the modlog case. -/
def processUserG (initiator : String) (gid uid : Nat) (reason : String)
    (g : GuildState) (bl : List Val) : GuildState × List Val × List Event :=
  if g.bansFail then
    (g, bl, [Event.bansCall gid, Event.logExc gid])
  else if uid ∈ g.bans then
    (g, (if Val.int uid ∈ bl then bl else bl ++ [Val.str uid]), [Event.bansCall gid])
  else if uid ∈ g.members then
    if uid ∈ g.banForbidden then
      (g, bl, [Event.bansCall gid, Event.banCall gid uid (banReason initiator reason) false,
        Event.logWarn gid uid])
    else
      ({ g with bans := g.bans ++ [uid] }, bl,
        [Event.bansCall gid, Event.banCall gid uid (banReason initiator reason) false,
          Event.audit globalbanAct gid (some uid) (banReason initiator reason)])
  else if uid ∈ g.banNotFound then
    (g, bl, [Event.bansCall gid, Event.banCall gid uid (banReason initiator reason) true,
      Event.audit globalbanAct gid none (banReason initiator reason)])
  else if uid ∈ g.banForbidden then
    (g, bl, [Event.bansCall gid, Event.banCall gid uid (banReason initiator reason) true,
      Event.logWarn gid uid])
  else
    ({ g with bans := g.bans ++ [uid] }, bl,
      [Event.bansCall gid, Event.banCall gid uid (banReason initiator reason) true,
        Event.audit globalbanAct gid none (banReason initiator reason)])

/-- The inner roster loop of update_gbs for a fixed guild, threading the
guild state and its stored banlist. -/
def processGuild (initiator : String) (gid : Nat) :
    List (Nat × String) → GuildState → List Val → GuildState × List Val × List Event
  | [], g, bl => (g, bl, [])
  | (uid, reason) :: rest, g, bl =>
    let r1 := processUserG initiator gid uid reason g bl
    let r2 := processGuild initiator gid rest r1.1 r1.2.1
    (r2.1, r2.2.1, r1.2.2 ++ r2.2.2)

/-- The outer guild loop of update_gbs (line 201 of core.py): guilds the
provider does not know are skipped; for known guilds the roster loop
runs and the updated guild state and banlist are written back. -/
def updateGo (initiator : String) :
    List Nat → Config → World → RunResult
  | [], cfg, w => ⟨cfg, w, []⟩
  | gid :: rest, cfg, w =>
    match lookupA w gid with
    | none => updateGo initiator rest cfg w
    | some g =>
      let r1 := processGuild initiator gid cfg.banned g (getBanlist cfg gid)
      let r2 := updateGo initiator rest (setBanlist cfg gid r1.2.1) (setA w gid r1.1)
      ⟨r2.config, r2.world, r1.2.2 ++ r2.trace⟩

/-- update_gbs (core.py lines 200-247): apply the global roster to every
opted guild. -/
def update_gbs (initiator : String) (cfg : Config) (w : World) : RunResult :=
  updateGo initiator cfg.opted cfg w

/-- The per guild body of remove_gbs_user (core.py lines 266-287):
unknown guilds are skipped; guilds whose banlist contains the integer id
are skipped before any provider call; a failing ban enumeration is
logged and the guild skipped; otherwise, if the user is currently
banned, an unban call is issued (Forbidden is swallowed). -/
def removeUserGo (uid : Nat) :
    List Nat → Config → World → RunResult
  | [], cfg, w => ⟨cfg, w, []⟩
  | gid :: rest, cfg, w =>
    match lookupA w gid with
    | none => removeUserGo uid rest cfg w
    | some g =>
      if Val.int uid ∈ getBanlist cfg gid then
        removeUserGo uid rest cfg w
      else if g.bansFail then
        let r := removeUserGo uid rest cfg w
        ⟨r.config, r.world, [Event.bansCall gid, Event.logExc gid] ++ r.trace⟩
      else if uid ∈ g.bans then
        let g2 := if uid ∈ g.unbanForbidden then g
          else { g with bans := g.bans.erase uid }
        let r := removeUserGo uid rest cfg (setA w gid g2)
        ⟨r.config, r.world, [Event.bansCall gid, Event.unbanCall gid uid] ++ r.trace⟩
      else
        let r := removeUserGo uid rest cfg w
        ⟨r.config, r.world, [Event.bansCall gid] ++ r.trace⟩

/-- remove_gbs_user: lift the ban of one user in every opted guild. -/
def remove_gbs_user (cfg : Config) (w : World) (uid : Nat) : RunResult :=
  removeUserGo uid cfg.opted cfg w

/-- The ban loop of remove_gbs_guild (core.py lines 252-264), iterating
over the snapshot of the bans taken by the single guild.bans() call
while threading the live ban list: users whose decimal id is not a
roster key, or whose integer id is in the guild banlist, are skipped;
every other banned user gets an unban call (Forbidden swallowed). -/
def removeGuildLoop (cfg : Config) (gid : Nat) (g : GuildState) :
    List Nat → List Nat → List Nat × List Event
  | [], cur => (cur, [])
  | user :: rest, cur =>
    if user ∉ bannedKeys cfg ∨ Val.int user ∈ getBanlist cfg gid then
      removeGuildLoop cfg gid g rest cur
    else
      let cur2 := if user ∈ g.unbanForbidden then cur else cur.erase user
      let r := removeGuildLoop cfg gid g rest cur2
      (r.1, Event.unbanCall gid user :: r.2)

/-- remove_gbs_guild (core.py lines 249-264).  The source performs no
None check on the result of get_guild, so an unknown guild id raises
AttributeError when guild.bans() is evaluated, and a failing ban
enumeration propagates out as well; both are modelled by Except.error. -/
def remove_gbs_guild (cfg : Config) (w : World) (gid : Nat) :
    Except PyErr RunResult :=
  match lookupA w gid with
  | none => Except.error PyErr.attributeError
  | some g =>
    if g.bansFail then Except.error PyErr.attributeError
    else
      let r := removeGuildLoop cfg gid g g.bans g.bans
      Except.ok ⟨cfg, setA w gid { g with bans := r.1 }, r.2⟩

/-- The configuration left behind by a remove_gbs_guild run; when the
run raised, no configuration write had happened, so the input
configuration d is still in place. -/
def cfgOfResult (r : Except PyErr RunResult) (d : Config) : Config :=
  match r with
  | Except.ok res => res.config
  | Except.error _ => d

/-- The trace of a remove_gbs_guild run; empty when the run raised
before issuing any call. -/
def traceOfResult (r : Except PyErr RunResult) : List Event :=
  match r with
  | Except.ok res => res.trace
  | Except.error _ => []

/-- Decidable check that no ban attempt of an update_gbs pass over cfg
and w can fail: no roster user is in the banForbidden or banNotFound
list of any reachable opted guild. -/
def noBanFailuresB (cfg : Config) (w : World) : Bool :=
  cfg.opted.all fun gid =>
    match lookupA w gid with
    | none => true
    | some g =>
      cfg.banned.all fun p =>
        !(decide (p.1 ∈ g.banForbidden) || decide (p.1 ∈ g.banNotFound))

/-- True exactly on modlog audit events. -/
def isAudit : Event → Bool
  | Event.audit _ _ _ _ => true
  | _ => false

/-- Number of modlog audit records in a trace. -/
def countAudits (tr : List Event) : Nat :=
  tr.countP isAudit

/-- Equality of all guild state fields except the live ban list; the
reconciler operations only ever change the bans of a guild. -/
def fieldsEq (a b : GuildState) : Prop :=
  a.members = b.members ∧ a.bansFail = b.bansFail ∧
  a.banForbidden = b.banForbidden ∧ a.banNotFound = b.banNotFound ∧
  a.unbanForbidden = b.unbanForbidden

/-- The initiator identity of the specification scenarios. -/
def alice : String :=
  "Alice"

/-- The roster reason of the specification scenarios. -/
def spamReason : String :=
  "spam"

/-- The exact reason string the specification scenarios expect. -/
def fullReason : String :=
  "Global ban initiated by Alice with the reason: spam"

/-- C5 scenario configuration: roster maps 42 to spam, guild 1 opted,
empty banlist for guild 1. -/
def cfgC5 : Config :=
  ⟨[(42, "spam")], [1], [(1, [])]⟩

/-- C5 scenario world: guild 1 has no bans, 42 is a member, no provider
failures. -/
def wC5 : World :=
  [(1, ⟨[], [42], false, [], [], []⟩)]

/-- C6 scenario configuration: roster maps 42 to spam, guild 1 opted. -/
def cfgC6 : Config :=
  ⟨[(42, "spam")], [1], [(1, [])]⟩

/-- C6 scenario world: guild 1 already has 42 banned. -/
def wC6 : World :=
  [(1, ⟨[42], [], false, [], [], []⟩)]

/-- C1 failing input for remove_gbs_user: 42 was removed from the
roster, guild 1 is opted, and the stored banlist of guild 1 holds the
string entry for 42 exactly as a previous update_gbs run wrote it. -/
def cfgC1u : Config :=
  ⟨[], [1], [(1, [Val.str 42])]⟩

/-- C1 failing world for remove_gbs_user: guild 1 currently bans 42. -/
def wC1u : World :=
  [(1, ⟨[42], [], false, [], [], []⟩)]

/-- C1 failing input for remove_gbs_guild: 42 is on the roster and the
stored banlist of guild 1 holds the string entry for 42. -/
def cfgC1g : Config :=
  ⟨[(42, "x")], [1], [(1, [Val.str 42])]⟩

/-- C1 failing world for remove_gbs_guild: guild 1 currently bans 42. -/
def wC1g : World :=
  [(1, ⟨[42], [], false, [], [], []⟩)]

/-- C4 configuration (contents irrelevant to the failure). -/
def cfgC4 : Config :=
  ⟨[(42, "x")], [1], []⟩

/-- C4 world for the enumeration-failure case: guild 1 exists but
enumerating its bans raises. -/
def wC4b : World :=
  [(1, ⟨[42], [], true, [], [], []⟩)]

/-- C8 failing input: roster maps 42 to spam, guild 1 opted with an
empty stored banlist. -/
def cfgC8 : Config :=
  ⟨[(42, "spam")], [1], [(1, [])]⟩

/-- C8 failing world: guild 1 already has 42 banned, so every
update_gbs pass takes the already-banned branch. -/
def wC8 : World :=
  [(1, ⟨[42], [], false, [], [], []⟩)]

/-- C2 counterexample configuration: roster maps 42 to spam, guild 1
opted. -/
def cfgC2x : Config :=
  ⟨[(42, "spam")], [1], [(1, [])]⟩

/-- C2 counterexample world: banning 42 in guild 1 always answers
Forbidden, so the first pass completes without banning 42 and the
second pass repeats the ban call. -/
def wC2x : World :=
  [(1, ⟨[], [], false, [42], [], []⟩)]

/-- C2 amended-claim witness configuration. -/
def cfgC2w : Config :=
  ⟨[(42, "spam")], [1], [(1, [])]⟩

/-- C2 amended-claim witness world: no provider failures. -/
def wC2w : World :=
  [(1, ⟨[], [42], false, [], [], []⟩)]

/-- C3 counterexample configuration: a two-entry roster and guild 7
opted. -/
def cfgC3x : Config :=
  ⟨[(101, "a"), (102, "b")], [7], []⟩

/-- C3 counterexample world: enumerating the bans of guild 7 always
raises, so each roster entry triggers one enumeration attempt and one
logged exception. -/
def wC3x : World :=
  [(7, ⟨[], [], true, [], [], []⟩)]

/-- C3 amended-claim witness guild: ban enumeration raises. -/
def gC3w : GuildState :=
  ⟨[9], [], true, [], [], []⟩

/-- C3 amended-claim witness world. -/
def wC3w : World :=
  [(7, gC3w)]

/-- C3 amended-claim witness configuration. -/
def cfgC3w : Config :=
  ⟨[(101, "a"), (102, "b")], [7], [(7, [Val.int 5])]⟩

/-- C7 witness configuration: 42 is on the roster, guild 1 banlist is
empty. -/
def cfgC7w : Config :=
  ⟨[(42, "r")], [1], [(1, [])]⟩

/-- C7 witness guild: 42 and 43 are banned; 43 is not on the roster. -/
def gC7w : GuildState :=
  ⟨[42, 43], [], false, [], [], []⟩

/-- C7 witness world. -/
def wC7w : World :=
  [(1, gC7w)]

/-- C7 witness expected run result: only 42 is unbanned, 43 stays. -/
def resC7w : RunResult :=
  ⟨cfgC7w, [(1, ⟨[43], [], false, [], [], []⟩)], [Event.unbanCall 1 42]⟩

/-- C9 witness configuration: two roster entries, guild 1 opted. -/
def cfgC9w : Config :=
  ⟨[(5, "x"), (6, "y")], [1], [(1, [])]⟩

/-- C9 witness guild: banning member 5 answers Forbidden, banning
member 6 succeeds. -/
def gC9w : GuildState :=
  ⟨[], [5, 6], false, [5], [], []⟩

/-- C9 witness world. -/
def wC9w : World :=
  [(1, gC9w)]

end GlobalBan

deriving instance DecidableEq for Except

namespace GlobalBan

/-- C5: on the scenario roster 42 to spam with guild 1 opted and no
existing ban on 42, update_gbs initiated by Alice issues exactly one
ban call for 42 in guild 1 with the exact reason string, and writes
exactly one modlog record with action type globalban, target user 42,
guild 1 and that reason (the created_at timestamp is wall clock and
outside the model). -/
theorem update_gbs_single_ban_scenario :
    (update_gbs alice cfgC5 wC5).trace =
      [Event.bansCall 1, Event.banCall 1 42 fullReason false,
        Event.audit globalbanAct 1 (some 42) fullReason] ∧
    countBanCalls (update_gbs alice cfgC5 wC5).trace = 1 ∧
    countAudits (update_gbs alice cfgC5 wC5).trace = 1 ∧
    banReason alice spamReason = fullReason := by
  decide

/-- C6: on the scenario roster 42 to spam with guild 1 opted and 42
already banned in guild 1, update_gbs adds 42 to the stored banlist of
guild 1 and issues no ban call. -/
theorem update_gbs_already_banned_scenario :
    (update_gbs alice cfgC6 wC6).trace = [Event.bansCall 1] ∧
    countBanCalls (update_gbs alice cfgC6 wC6).trace = 0 ∧
    occursId 42 (getBanlist (update_gbs alice cfgC6 wC6).config 1) = true := by
  decide

/-- C1: evaluation of the code at the failing inputs.  User 42 occurs
in the stored banlist of guild 1 (as the string entry update_gbs itself
writes), yet remove_gbs_user 42 issues an unban for 42 in guild 1, and
remove_gbs_guild on guild 1 also issues an unban for 42 — the
protection checks test integer membership while update_gbs stores the
string form of the id, so the claimed invariant fails. -/
theorem remove_ops_ignore_string_allowlist_entries :
    occursId 42 (getBanlist cfgC1u 1) = true ∧
    Event.unbanCall 1 42 ∈ (remove_gbs_user cfgC1u wC1u 42).trace ∧
    occursId 42 (getBanlist cfgC1g 1) = true ∧
    Event.unbanCall 1 42 ∈ traceOfResult (remove_gbs_guild cfgC1g wC1g 1) := by
  decide

/-- C4: evaluation of the code at the failing input.  remove_gbs_guild
performs no None check on get_guild, so on a guild id unknown to the
provider it raises AttributeError instead of skipping, and a failing
ban enumeration propagates out as well — both errors are fatal to the
operation, contradicting the claim. -/
theorem remove_gbs_guild_unknown_guild_raises :
    remove_gbs_guild cfgC4 [] 99 = Except.error PyErr.attributeError ∧
    remove_gbs_guild cfgC4 wC4b 1 = Except.error PyErr.attributeError := by
  decide

/-- C8: evaluation of the code at the failing input.  Starting from an
empty stored banlist for guild 1 with 42 already banned there, two
update_gbs passes leave two occurrences of the identifier 42 in the
banlist: the duplicate guard checks integer membership but the append
stores the string form, so the guard never sees the earlier entry. -/
theorem update_gbs_duplicate_banlist_entries :
    countId 42
      (getBanlist
        (update_gbs alice (update_gbs alice cfgC8 wC8).config
          (update_gbs alice cfgC8 wC8).world).config 1) = 2 ∧
    ¬ countId 42
      (getBanlist
        (update_gbs alice (update_gbs alice cfgC8 wC8).config
          (update_gbs alice cfgC8 wC8).world).config 1) ≤ 1 := by
  decide

/-- C2 counterexample: with guild 1 opted and the ban of roster user 42
answering Forbidden, the first update_gbs pass completes, the state is
unchanged, and the second pass issues one further ban call — not zero
as the claim states. -/
theorem update_gbs_second_pass_ban_call :
    countBanCalls
      (update_gbs alice (update_gbs alice cfgC2x wC2x).config
        (update_gbs alice cfgC2x wC2x).world).trace = 1 ∧
    countBanCalls
      (update_gbs alice (update_gbs alice cfgC2x wC2x).config
        (update_gbs alice cfgC2x wC2x).world).trace ≠ 0 := by
  decide

/-- C3 counterexample: with a two-entry roster and ban enumeration of
guild 7 failing, update_gbs attempts the enumeration once per roster
entry — two provider calls for guild 7 — rather than skipping the
guild for the remainder of the call after the first failure. -/
theorem update_gbs_enum_failure_retries :
    (update_gbs alice cfgC3x wC3x).trace.count (Event.bansCall 7) = 2 ∧
    ¬ (update_gbs alice cfgC3x wC3x).trace.count (Event.bansCall 7) ≤ 1 := by
  decide

lemma lookupA_setA_self {α : Type} (l : List (Nat × α)) (k : Nat) (v : α) :
    lookupA (setA l k v) k = some v := by
  induction l with
  | nil => simp [setA, lookupA]
  | cons p rest ih =>
    obtain ⟨k0, v0⟩ := p
    by_cases h : k0 = k
    · simp [setA, lookupA, h]
    · simp [setA, lookupA, h, ih]

lemma lookupA_setA_ne {α : Type} (l : List (Nat × α)) (k k2 : Nat) (v : α)
    (h : k2 ≠ k) : lookupA (setA l k v) k2 = lookupA l k2 := by
  induction l with
  | nil => simp [setA, lookupA, Ne.symm h]
  | cons p rest ih =>
    obtain ⟨k0, v0⟩ := p
    by_cases h0 : k0 = k
    · subst h0
      simp [setA, lookupA, Ne.symm h]
    · by_cases h2 : k0 = k2 <;> simp [setA, lookupA, h0, h2, ih, h]

lemma getBanlist_setBanlist_self (cfg : Config) (k : Nat) (bl : List Val) :
    getBanlist (setBanlist cfg k bl) k = bl := by
  simp [getBanlist, setBanlist, lookupA_setA_self]

lemma getBanlist_setBanlist_ne (cfg : Config) (k k2 : Nat) (bl : List Val)
    (h : k2 ≠ k) : getBanlist (setBanlist cfg k bl) k2 = getBanlist cfg k2 := by
  simp [getBanlist, setBanlist, lookupA_setA_ne _ _ _ _ h]

lemma setBanlist_banned (cfg : Config) (k : Nat) (bl : List Val) :
    (setBanlist cfg k bl).banned = cfg.banned := rfl

lemma setBanlist_opted (cfg : Config) (k : Nat) (bl : List Val) :
    (setBanlist cfg k bl).opted = cfg.opted := rfl

lemma fieldsEq_refl (g : GuildState) : fieldsEq g g :=
  ⟨rfl, rfl, rfl, rfl, rfl⟩

lemma fieldsEq_trans {a b c : GuildState} (h1 : fieldsEq a b) (h2 : fieldsEq b c) :
    fieldsEq a c := by
  obtain ⟨x1, x2, x3, x4, x5⟩ := h1
  obtain ⟨y1, y2, y3, y4, y5⟩ := h2
  exact ⟨x1.trans y1, x2.trans y2, x3.trans y3, x4.trans y4, x5.trans y5⟩

lemma countBanCalls_append (l1 l2 : List Event) :
    countBanCalls (l1 ++ l2) = countBanCalls l1 + countBanCalls l2 :=
  List.countP_append _ _ _

lemma processUserG_bansFail {g : GuildState} (initiator : String) (gid uid : Nat)
    (reason : String) (bl : List Val) (h : g.bansFail = true) :
    processUserG initiator gid uid reason g bl =
      (g, bl, [Event.bansCall gid, Event.logExc gid]) := by
  simp [processUserG, h]

lemma processUserG_banned {g : GuildState} (initiator : String) (gid uid : Nat)
    (reason : String) (bl : List Val) (h1 : g.bansFail = false) (h2 : uid ∈ g.bans) :
    processUserG initiator gid uid reason g bl =
      (g, (if Val.int uid ∈ bl then bl else bl ++ [Val.str uid]),
        [Event.bansCall gid]) := by
  simp [processUserG, h1, h2]

lemma processUserG_fields (initiator : String) (gid uid : Nat) (reason : String)
    (g : GuildState) (bl : List Val) :
    fieldsEq (processUserG initiator gid uid reason g bl).1 g ∧
    g.bans ⊆ (processUserG initiator gid uid reason g bl).1.bans := by
  unfold processUserG fieldsEq
  split_ifs <;>
    simp [List.subset_append_left, List.Subset.refl]

lemma processUserG_success {g : GuildState} (initiator : String) (gid uid : Nat)
    (reason : String) (bl : List Val) (h1 : g.bansFail = false) (h2 : uid ∉ g.bans)
    (h3 : uid ∉ g.banForbidden) (h4 : uid ∉ g.banNotFound) :
    (processUserG initiator gid uid reason g bl).1.bans = g.bans ++ [uid] := by
  by_cases hm : uid ∈ g.members <;>
    simp [processUserG, h1, h2, h3, h4, hm]

lemma processUserG_forbidden {g : GuildState} (initiator : String) (gid uid : Nat)
    (reason : String) (bl : List Val) (h1 : g.bansFail = false) (h2 : uid ∉ g.bans)
    (h3 : uid ∈ g.banForbidden) (h4 : uid ∈ g.members ∨ uid ∉ g.banNotFound) :
    Event.logWarn gid uid ∈ (processUserG initiator gid uid reason g bl).2.2 ∧
    (processUserG initiator gid uid reason g bl).1 = g := by
  by_cases hm : uid ∈ g.members
  · simp [processUserG, h1, h2, h3, hm]
  · have h5 : uid ∉ g.banNotFound := h4.resolve_left hm
    simp [processUserG, h1, h2, h3, h5, hm]

lemma processUserG_bans_mem {g : GuildState} {initiator : String} {gid uid : Nat}
    {reason : String} {bl : List Val} {x : Nat}
    (hx : x ∈ (processUserG initiator gid uid reason g bl).1.bans) :
    x ∈ g.bans ∨ x = uid := by
  unfold processUserG at hx
  split_ifs at hx <;> simp_all [List.mem_append]

lemma processUserG_bansCall_count (initiator : String) (gid uid : Nat)
    (reason : String) (g : GuildState) (bl : List Val) :
    ((processUserG initiator gid uid reason g bl).2.2).count (Event.bansCall gid) = 1 := by
  unfold processUserG
  split_ifs <;> simp [List.count_cons]

lemma processUserG_all_gid (initiator : String) (gid uid : Nat) (reason : String)
    (g : GuildState) (bl : List Val) :
    ((processUserG initiator gid uid reason g bl).2.2).all
      (fun x => evGid x == gid) = true := by
  unfold processUserG
  split_ifs <;> simp [evGid]

lemma processGuild_nil (initiator : String) (gid : Nat) (g : GuildState)
    (bl : List Val) : processGuild initiator gid [] g bl = (g, bl, []) := rfl

lemma processGuild_cons (initiator : String) (gid uid : Nat) (reason : String)
    (rest : List (Nat × String)) (g : GuildState) (bl : List Val) :
    processGuild initiator gid ((uid, reason) :: rest) g bl =
      ((processGuild initiator gid rest
          (processUserG initiator gid uid reason g bl).1
          (processUserG initiator gid uid reason g bl).2.1).1,
        (processGuild initiator gid rest
          (processUserG initiator gid uid reason g bl).1
          (processUserG initiator gid uid reason g bl).2.1).2.1,
        (processUserG initiator gid uid reason g bl).2.2 ++
          (processGuild initiator gid rest
            (processUserG initiator gid uid reason g bl).1
            (processUserG initiator gid uid reason g bl).2.1).2.2) := rfl

lemma processGuild_fields (initiator : String) (gid : Nat)
    (roster : List (Nat × String)) :
    ∀ (g : GuildState) (bl : List Val),
      fieldsEq (processGuild initiator gid roster g bl).1 g ∧
      g.bans ⊆ (processGuild initiator gid roster g bl).1.bans := by
  induction roster with
  | nil => intro g bl; exact ⟨fieldsEq_refl g, List.Subset.refl _⟩
  | cons q rest ih =>
    intro g bl
    obtain ⟨uid, reason⟩ := q
    rw [processGuild_cons]
    dsimp only
    obtain ⟨hf1, hs1⟩ := processUserG_fields initiator gid uid reason g bl
    obtain ⟨hf2, hs2⟩ := ih (processUserG initiator gid uid reason g bl).1
      (processUserG initiator gid uid reason g bl).2.1
    exact ⟨fieldsEq_trans hf2 hf1, hs1.trans hs2⟩

lemma processGuild_banned (initiator : String) (gid : Nat)
    (roster : List (Nat × String)) :
    ∀ (g : GuildState) (bl : List Val), g.bansFail = false →
      (∀ p ∈ roster, p.1 ∈ g.bans) →
      (processGuild initiator gid roster g bl).1 = g ∧
      countBanCalls (processGuild initiator gid roster g bl).2.2 = 0 := by
  induction roster with
  | nil => intro g bl _ _; exact ⟨rfl, rfl⟩
  | cons q rest ih =>
    intro g bl h1 hall
    obtain ⟨uid, reason⟩ := q
    have hb : uid ∈ g.bans := hall (uid, reason) (List.mem_cons_self _ _)
    rw [processGuild_cons, processUserG_banned initiator gid uid reason bl h1 hb]
    dsimp only
    obtain ⟨ihg, ihc⟩ := ih g (if Val.int uid ∈ bl then bl else bl ++ [Val.str uid])
      h1 (fun p hp => hall p (List.mem_cons_of_mem _ hp))
    refine ⟨ihg, ?_⟩
    rw [countBanCalls_append, ihc]
    rfl

lemma processGuild_bansFail (initiator : String) (gid : Nat)
    (roster : List (Nat × String)) :
    ∀ (g : GuildState) (bl : List Val), g.bansFail = true →
      (processGuild initiator gid roster g bl).1 = g ∧
      (processGuild initiator gid roster g bl).2.1 = bl ∧
      (processGuild initiator gid roster g bl).2.2.count (Event.bansCall gid) =
        roster.length ∧
      (processGuild initiator gid roster g bl).2.2.count (Event.logExc gid) =
        roster.length ∧
      ∀ e ∈ (processGuild initiator gid roster g bl).2.2,
        e = Event.bansCall gid ∨ e = Event.logExc gid := by
  induction roster with
  | nil =>
    intro g bl _
    refine ⟨rfl, rfl, rfl, rfl, ?_⟩
    intro e he
    simp [processGuild_nil] at he
  | cons q rest ih =>
    intro g bl h
    obtain ⟨uid, reason⟩ := q
    rw [processGuild_cons, processUserG_bansFail initiator gid uid reason bl h]
    dsimp only
    obtain ⟨i1, i2, i3, i4, i5⟩ := ih g bl h
    refine ⟨i1, i2, ?_, ?_, ?_⟩
    · rw [List.count_append, i3]
      simp [List.count_cons]
      omega
    · rw [List.count_append, i4]
      simp [List.count_cons]
      omega
    · intro e he
      rcases List.mem_append.mp he with h1 | h1
      · rcases List.mem_cons.mp h1 with rfl | h2
        · exact Or.inl rfl
        · rcases List.mem_cons.mp h2 with rfl | h3
          · exact Or.inr rfl
          · simp at h3
      · exact i5 e h1

lemma processGuild_post (initiator : String) (gid : Nat)
    (roster : List (Nat × String)) :
    ∀ (g : GuildState) (bl : List Val), g.bansFail = false →
      (∀ p ∈ roster, p.1 ∉ g.banForbidden ∧ p.1 ∉ g.banNotFound) →
      ∀ p ∈ roster, p.1 ∈ (processGuild initiator gid roster g bl).1.bans := by
  induction roster with
  | nil => intro g bl _ _ p hp; simp at hp
  | cons q rest ih =>
    intro g bl h1 h2 p hp
    obtain ⟨uid, reason⟩ := q
    rw [processGuild_cons]
    dsimp only
    obtain ⟨hfe, hsub⟩ := processUserG_fields initiator gid uid reason g bl
    obtain ⟨hm, hbf, hforb, hnf, hunb⟩ := hfe
    rcases List.mem_cons.mp hp with heq | ht
    · subst heq
      by_cases hb : uid ∈ g.bans
      · exact (processGuild_fields initiator gid rest _ _).2 (hsub hb)
      · obtain ⟨hnf2, hnb2⟩ := h2 (uid, reason) (List.mem_cons_self _ _)
        have hsucc := processUserG_success initiator gid uid reason bl h1 hb hnf2 hnb2
        have hr1 : uid ∈ (processUserG initiator gid uid reason g bl).1.bans := by
          rw [hsucc]
          exact List.mem_append_right _ (by simp)
        exact (processGuild_fields initiator gid rest _ _).2 hr1
    · refine ih _ _ ?_ ?_ p ht
      · rw [hbf]; exact h1
      · intro p2 hp2
        rw [hforb, hnf]
        exact h2 p2 (List.mem_cons_of_mem _ hp2)

lemma processGuild_bansCall_count (initiator : String) (gid : Nat)
    (roster : List (Nat × String)) :
    ∀ (g : GuildState) (bl : List Val),
      (processGuild initiator gid roster g bl).2.2.count (Event.bansCall gid) =
        roster.length := by
  induction roster with
  | nil => intro g bl; rfl
  | cons q rest ih =>
    intro g bl
    obtain ⟨uid, reason⟩ := q
    rw [processGuild_cons]
    dsimp only
    rw [List.count_append, processUserG_bansCall_count, ih]
    simp [Nat.add_comm]

lemma processGuild_all_gid (initiator : String) (gid : Nat)
    (roster : List (Nat × String)) :
    ∀ (g : GuildState) (bl : List Val),
      ((processGuild initiator gid roster g bl).2.2).all
        (fun x => evGid x == gid) = true := by
  induction roster with
  | nil => intro g bl; rfl
  | cons q rest ih =>
    intro g bl
    obtain ⟨uid, reason⟩ := q
    rw [processGuild_cons]
    dsimp only
    rw [List.all_append]
    simp [processUserG_all_gid, ih]

lemma processGuild_evGid {initiator : String} {gid : Nat}
    {roster : List (Nat × String)} {g : GuildState} {bl : List Val} {e : Event}
    (he : e ∈ (processGuild initiator gid roster g bl).2.2) : evGid e = gid := by
  have h := processGuild_all_gid initiator gid roster g bl
  rw [List.all_eq_true] at h
  simpa using h e he

lemma processGuild_count_other {initiator : String} {gid1 : Nat}
    {roster : List (Nat × String)} {g : GuildState} {bl : List Val}
    (e : Event) (gid : Nat) (hev : evGid e = gid) (hne : gid1 ≠ gid) :
    (processGuild initiator gid1 roster g bl).2.2.count e = 0 := by
  rw [List.count_eq_zero]
  intro hmem
  have h1 := processGuild_evGid hmem
  rw [hev] at h1
  exact hne h1.symm

lemma processGuild_logWarn (initiator : String) (gid : Nat)
    (roster : List (Nat × String)) :
    ∀ (g : GuildState) (bl : List Val) (uid : Nat) (s : String),
      g.bansFail = false → (uid, s) ∈ roster → (roster.map Prod.fst).Nodup →
      uid ∉ g.bans → uid ∈ g.banForbidden →
      (uid ∈ g.members ∨ uid ∉ g.banNotFound) →
      Event.logWarn gid uid ∈ (processGuild initiator gid roster g bl).2.2 := by
  induction roster with
  | nil => intro g bl uid s _ hmem; simp at hmem
  | cons q rest ih =>
    intro g bl uid s h1 hmem hnd hb hforb hcase
    obtain ⟨u0, s0⟩ := q
    rw [processGuild_cons]
    dsimp only
    rcases List.mem_cons.mp hmem with heq | ht
    · cases heq
      exact List.mem_append_left _
        (processUserG_forbidden initiator gid uid s bl h1 hb hforb hcase).1
    · apply List.mem_append_right
      obtain ⟨hfe, _⟩ := processUserG_fields initiator gid u0 s0 g bl
      obtain ⟨hm, hbf, hfo, hnf, hub⟩ := hfe
      have hne : uid ≠ u0 := by
        intro hcontra
        subst hcontra
        have hmm : uid ∈ rest.map Prod.fst := List.mem_map_of_mem _ ht
        rw [List.map_cons] at hnd
        exact (List.nodup_cons.mp hnd).1 hmm
      refine ih _ _ uid s ?_ ht ?_ ?_ ?_ ?_
      · rw [hbf]; exact h1
      · rw [List.map_cons] at hnd; exact (List.nodup_cons.mp hnd).2
      · intro hcontra
        rcases processUserG_bans_mem hcontra with h | h
        · exact hb h
        · exact hne h
      · rw [hfo]; exact hforb
      · rw [hm, hnf]; exact hcase

lemma updateGo_nil (initiator : String) (cfg : Config) (w : World) :
    updateGo initiator [] cfg w = ⟨cfg, w, []⟩ := rfl

lemma updateGo_cons_none (initiator : String) (gid : Nat) (rest : List Nat)
    (cfg : Config) (w : World) (h : lookupA w gid = none) :
    updateGo initiator (gid :: rest) cfg w = updateGo initiator rest cfg w := by
  simp only [updateGo, h]

lemma updateGo_cons_some (initiator : String) (gid : Nat) (rest : List Nat)
    (cfg : Config) (w : World) (g : GuildState) (h : lookupA w gid = some g) :
    updateGo initiator (gid :: rest) cfg w =
      ⟨(updateGo initiator rest
          (setBanlist cfg gid
            (processGuild initiator gid cfg.banned g (getBanlist cfg gid)).2.1)
          (setA w gid
            (processGuild initiator gid cfg.banned g (getBanlist cfg gid)).1)).config,
        (updateGo initiator rest
          (setBanlist cfg gid
            (processGuild initiator gid cfg.banned g (getBanlist cfg gid)).2.1)
          (setA w gid
            (processGuild initiator gid cfg.banned g (getBanlist cfg gid)).1)).world,
        (processGuild initiator gid cfg.banned g (getBanlist cfg gid)).2.2 ++
          (updateGo initiator rest
            (setBanlist cfg gid
              (processGuild initiator gid cfg.banned g (getBanlist cfg gid)).2.1)
            (setA w gid
              (processGuild initiator gid cfg.banned g
                (getBanlist cfg gid)).1)).trace⟩ := by
  simp only [updateGo, h]

lemma updateGo_config (initiator : String) (gids : List Nat) :
    ∀ (cfg : Config) (w : World),
      (updateGo initiator gids cfg w).config.banned = cfg.banned ∧
      (updateGo initiator gids cfg w).config.opted = cfg.opted := by
  induction gids with
  | nil => intro cfg w; exact ⟨rfl, rfl⟩
  | cons gid rest ih =>
    intro cfg w
    cases h : lookupA w gid with
    | none => rw [updateGo_cons_none _ _ _ _ _ h]; exact ih cfg w
    | some g =>
      rw [updateGo_cons_some _ _ _ _ _ _ h]
      dsimp only
      obtain ⟨a, b⟩ := ih
        (setBanlist cfg gid
          (processGuild initiator gid cfg.banned g (getBanlist cfg gid)).2.1)
        (setA w gid (processGuild initiator gid cfg.banned g (getBanlist cfg gid)).1)
      exact ⟨by rw [a, setBanlist_banned], by rw [b, setBanlist_opted]⟩

lemma updateGo_world_none (initiator : String) (gids : List Nat) :
    ∀ (cfg : Config) (w : World) (gid0 : Nat), lookupA w gid0 = none →
      lookupA (updateGo initiator gids cfg w).world gid0 = none := by
  induction gids with
  | nil => intro cfg w gid0 h0; exact h0
  | cons gid rest ih =>
    intro cfg w gid0 h0
    cases h : lookupA w gid with
    | none => rw [updateGo_cons_none _ _ _ _ _ h]; exact ih cfg w gid0 h0
    | some g =>
      rw [updateGo_cons_some _ _ _ _ _ _ h]
      dsimp only
      apply ih
      have hne : gid0 ≠ gid := by
        intro heq; subst heq; rw [h0] at h; cases h
      rw [lookupA_setA_ne _ _ _ _ hne]
      exact h0

lemma updateGo_world_pres (initiator : String) (gids : List Nat) :
    ∀ (cfg : Config) (w : World) (gid0 : Nat) (g0 : GuildState),
      lookupA w gid0 = some g0 →
      ∃ g1, lookupA (updateGo initiator gids cfg w).world gid0 = some g1 ∧
        fieldsEq g1 g0 ∧ g0.bans ⊆ g1.bans := by
  induction gids with
  | nil =>
    intro cfg w gid0 g0 h0
    exact ⟨g0, h0, fieldsEq_refl g0, List.Subset.refl _⟩
  | cons gid rest ih =>
    intro cfg w gid0 g0 h0
    cases h : lookupA w gid with
    | none => rw [updateGo_cons_none _ _ _ _ _ h]; exact ih cfg w gid0 g0 h0
    | some g =>
      rw [updateGo_cons_some _ _ _ _ _ _ h]
      dsimp only
      by_cases he : gid0 = gid
      · subst he
        have hg0 : g = g0 := Option.some.inj (h.symm.trans h0)
        subst hg0
        obtain ⟨g1, hl, hfe, hsub⟩ := ih
          (setBanlist cfg gid0
            (processGuild initiator gid0 cfg.banned g (getBanlist cfg gid0)).2.1)
          (setA w gid0
            (processGuild initiator gid0 cfg.banned g (getBanlist cfg gid0)).1)
          gid0
          (processGuild initiator gid0 cfg.banned g (getBanlist cfg gid0)).1
          (lookupA_setA_self _ _ _)
        refine ⟨g1, hl, ?_, ?_⟩
        · exact fieldsEq_trans hfe
            (processGuild_fields initiator gid0 cfg.banned g (getBanlist cfg gid0)).1
        · exact ((processGuild_fields initiator gid0 cfg.banned g
            (getBanlist cfg gid0)).2).trans hsub
      · have h2 : lookupA
            (setA w gid
              (processGuild initiator gid cfg.banned g (getBanlist cfg gid)).1)
            gid0 = some g0 := by
          rw [lookupA_setA_ne _ _ _ _ he]; exact h0
        exact ih _ _ _ _ h2

lemma updateGo_noBanCalls (initiator : String) (gids : List Nat) :
    ∀ (cfg : Config) (w : World),
      (∀ gid ∈ gids, ∀ g, lookupA w gid = some g →
        g.bansFail = true ∨ ∀ p ∈ cfg.banned, p.1 ∈ g.bans) →
      countBanCalls (updateGo initiator gids cfg w).trace = 0 := by
  induction gids with
  | nil => intro cfg w _; rfl
  | cons gid rest ih =>
    intro cfg w h
    cases hg : lookupA w gid with
    | none =>
      rw [updateGo_cons_none _ _ _ _ _ hg]
      exact ih cfg w (fun gid2 hm => h gid2 (List.mem_cons_of_mem _ hm))
    | some g =>
      rw [updateGo_cons_some _ _ _ _ _ _ hg]
      dsimp only
      rw [countBanCalls_append]
      have hcase := h gid (List.mem_cons_self _ _) g hg
      have hblock :
          (processGuild initiator gid cfg.banned g (getBanlist cfg gid)).1 = g ∧
          countBanCalls
            (processGuild initiator gid cfg.banned g (getBanlist cfg gid)).2.2 = 0 := by
        by_cases hf : g.bansFail
        · obtain ⟨b1, _, _, _, b5⟩ :=
            processGuild_bansFail initiator gid cfg.banned g (getBanlist cfg gid) hf
          refine ⟨b1, ?_⟩
          rw [countBanCalls, List.countP_eq_zero]
          intro e he
          rcases b5 e he with rfl | rfl <;> simp [isBanCall]
        · have hf2 : g.bansFail = false := by simp at hf; exact hf
          have hb : ∀ p ∈ cfg.banned, p.1 ∈ g.bans := by
            rcases hcase with hc | hc
            · rw [hf2] at hc; cases hc
            · exact hc
          exact processGuild_banned initiator gid cfg.banned g (getBanlist cfg gid) hf2 hb
      rw [hblock.2]
      simp only [Nat.zero_add]
      apply ih
      intro gid2 hm2 g2 hg2
      rw [setBanlist_banned]
      by_cases he : gid2 = gid
      · subst he
        rw [lookupA_setA_self, hblock.1] at hg2
        have : g = g2 := Option.some.inj hg2
        subst this
        exact h gid2 (List.mem_cons_self _ _) g hg
      · rw [lookupA_setA_ne _ _ _ _ he] at hg2
        exact h gid2 (List.mem_cons_of_mem _ hm2) g2 hg2

lemma updateGo_post_banned (initiator : String) (gids : List Nat) :
    ∀ (cfg : Config) (w : World),
      (∀ gid ∈ gids, ∀ g, lookupA w gid = some g →
        ∀ p ∈ cfg.banned, p.1 ∉ g.banForbidden ∧ p.1 ∉ g.banNotFound) →
      ∀ gid ∈ gids, ∀ g2,
        lookupA (updateGo initiator gids cfg w).world gid = some g2 →
        g2.bansFail = true ∨ ∀ p ∈ cfg.banned, p.1 ∈ g2.bans := by
  induction gids with
  | nil => intro cfg w _ gid hm; simp at hm
  | cons gid1 rest ih =>
    intro cfg w H gid hm g2 hg2
    cases hg : lookupA w gid1 with
    | none =>
      rw [updateGo_cons_none _ _ _ _ _ hg] at hg2
      rcases List.mem_cons.mp hm with heq | ht
      · subst heq
        rw [updateGo_world_none initiator rest cfg w gid hg] at hg2
        cases hg2
      · exact ih cfg w (fun gid2 hm2 => H gid2 (List.mem_cons_of_mem _ hm2))
          gid ht g2 hg2
    | some g =>
      rw [updateGo_cons_some _ _ _ _ _ _ hg] at hg2
      dsimp only at hg2
      have Hrest : ∀ gid2 ∈ rest, ∀ g3,
          lookupA
            (setA w gid1
              (processGuild initiator gid1 cfg.banned g (getBanlist cfg gid1)).1)
            gid2 = some g3 →
          ∀ p ∈ (setBanlist cfg gid1
              (processGuild initiator gid1 cfg.banned g
                (getBanlist cfg gid1)).2.1).banned,
            p.1 ∉ g3.banForbidden ∧ p.1 ∉ g3.banNotFound := by
        intro gid2 hm2 g3 hg3 p hp
        rw [setBanlist_banned] at hp
        by_cases he : gid2 = gid1
        · subst he
          rw [lookupA_setA_self] at hg3
          have hg3e :
              (processGuild initiator gid2 cfg.banned g (getBanlist cfg gid2)).1 =
                g3 := Option.some.inj hg3
          obtain ⟨_, _, hfo, hnf, _⟩ :=
            (processGuild_fields initiator gid2 cfg.banned g (getBanlist cfg gid2)).1
          rw [hg3e] at hfo hnf
          rw [hfo, hnf]
          exact H gid2 (List.mem_cons_self _ _) g hg p hp
        · rw [lookupA_setA_ne _ _ _ _ he] at hg3
          exact H gid2 (List.mem_cons_of_mem _ hm2) g3 hg3 p hp
      rcases List.mem_cons.mp hm with heq | ht
      · subst heq
        by_cases hf : g.bansFail
        · have hb1 :
              (processGuild initiator gid cfg.banned g (getBanlist cfg gid)).1 = g :=
            (processGuild_bansFail initiator gid cfg.banned g (getBanlist cfg gid) hf).1
          obtain ⟨g1, hl1, hfe1, _⟩ := updateGo_world_pres initiator rest _ _ gid
            (processGuild initiator gid cfg.banned g (getBanlist cfg gid)).1
            (lookupA_setA_self _ _ _)
          rw [hl1] at hg2
          obtain rfl : g1 = g2 := Option.some.inj hg2
          left
          obtain ⟨_, hbf2, _, _, _⟩ := hfe1
          rw [hbf2, hb1]
          exact hf
        · have hf2 : g.bansFail = false := by simp at hf; exact hf
          have hpost := processGuild_post initiator gid cfg.banned g
            (getBanlist cfg gid) hf2 (H gid (List.mem_cons_self _ _) g hg)
          obtain ⟨g1, hl1, hfe1, hsub1⟩ := updateGo_world_pres initiator rest _ _ gid
            (processGuild initiator gid cfg.banned g (getBanlist cfg gid)).1
            (lookupA_setA_self _ _ _)
          rw [hl1] at hg2
          obtain rfl : g1 = g2 := Option.some.inj hg2
          right
          intro p hp
          exact hsub1 (hpost p hp)
      · have := ih _ _ Hrest gid ht g2 hg2
        rwa [setBanlist_banned] at this

lemma updateGo_count_notmem (initiator : String) (gids : List Nat) :
    ∀ (cfg : Config) (w : World) (e : Event) (gid : Nat),
      evGid e = gid → gid ∉ gids →
      (updateGo initiator gids cfg w).trace.count e = 0 := by
  induction gids with
  | nil => intro cfg w e gid _ _; rfl
  | cons gid1 rest ih =>
    intro cfg w e gid hev hnm
    have hne : gid ≠ gid1 := fun hc => hnm (hc ▸ List.mem_cons_self _ _)
    have hnm2 : gid ∉ rest := fun hc => hnm (List.mem_cons_of_mem _ hc)
    cases hg : lookupA w gid1 with
    | none => rw [updateGo_cons_none _ _ _ _ _ hg]; exact ih cfg w e gid hev hnm2
    | some g =>
      rw [updateGo_cons_some _ _ _ _ _ _ hg]
      dsimp only
      rw [List.count_append, processGuild_count_other e gid hev (Ne.symm hne)]
      simp only [Nat.zero_add]
      exact ih _ _ e gid hev hnm2

lemma updateGo_count (initiator : String) (gids : List Nat) :
    ∀ (cfg : Config) (w : World) (e : Event) (gid : Nat) (g : GuildState),
      evGid e = gid → gids.Nodup → gid ∈ gids → lookupA w gid = some g →
      (updateGo initiator gids cfg w).trace.count e =
        (processGuild initiator gid cfg.banned g (getBanlist cfg gid)).2.2.count e := by
  induction gids with
  | nil => intro cfg w e gid g _ _ hm; simp at hm
  | cons gid1 rest ih =>
    intro cfg w e gid g hev hnd hm hg
    rcases List.mem_cons.mp hm with heq | ht
    · subst heq
      rw [updateGo_cons_some _ _ _ _ _ _ hg]
      dsimp only
      rw [List.count_append,
        updateGo_count_notmem initiator rest _ _ e gid hev (List.nodup_cons.mp hnd).1]
      omega
    · have hne : gid1 ≠ gid := by
        intro hc; subst hc; exact (List.nodup_cons.mp hnd).1 ht
      cases hg1 : lookupA w gid1 with
      | none =>
        rw [updateGo_cons_none _ _ _ _ _ hg1]
        exact ih cfg w e gid g hev (List.nodup_cons.mp hnd).2 ht hg
      | some g1 =>
        rw [updateGo_cons_some _ _ _ _ _ _ hg1]
        dsimp only
        rw [List.count_append, processGuild_count_other e gid hev hne]
        simp only [Nat.zero_add]
        have hg2 : lookupA
            (setA w gid1
              (processGuild initiator gid1 cfg.banned g1 (getBanlist cfg gid1)).1)
            gid = some g := by
          rw [lookupA_setA_ne _ _ _ _ (Ne.symm hne)]; exact hg
        rw [ih _ _ e gid g hev (List.nodup_cons.mp hnd).2 ht hg2]
        rw [setBanlist_banned, getBanlist_setBanlist_ne _ _ _ _ (Ne.symm hne)]

lemma updateGo_state_notmem (initiator : String) (gids : List Nat) :
    ∀ (cfg : Config) (w : World) (gid : Nat), gid ∉ gids →
      getBanlist (updateGo initiator gids cfg w).config gid = getBanlist cfg gid ∧
      lookupA (updateGo initiator gids cfg w).world gid = lookupA w gid := by
  induction gids with
  | nil => intro cfg w gid _; exact ⟨rfl, rfl⟩
  | cons gid1 rest ih =>
    intro cfg w gid hnm
    have hne : gid ≠ gid1 := fun hc => hnm (hc ▸ List.mem_cons_self _ _)
    have hnm2 : gid ∉ rest := fun hc => hnm (List.mem_cons_of_mem _ hc)
    cases hg : lookupA w gid1 with
    | none => rw [updateGo_cons_none _ _ _ _ _ hg]; exact ih cfg w gid hnm2
    | some g =>
      rw [updateGo_cons_some _ _ _ _ _ _ hg]
      dsimp only
      obtain ⟨a, b⟩ := ih
        (setBanlist cfg gid1
          (processGuild initiator gid1 cfg.banned g (getBanlist cfg gid1)).2.1)
        (setA w gid1 (processGuild initiator gid1 cfg.banned g (getBanlist cfg gid1)).1)
        gid hnm2
      refine ⟨?_, ?_⟩
      · rw [a, getBanlist_setBanlist_ne _ _ _ _ hne]
      · rw [b, lookupA_setA_ne _ _ _ _ hne]

lemma updateGo_bansFail_state (initiator : String) (gids : List Nat) :
    ∀ (cfg : Config) (w : World) (gid : Nat) (g : GuildState),
      gids.Nodup → gid ∈ gids → lookupA w gid = some g → g.bansFail = true →
      getBanlist (updateGo initiator gids cfg w).config gid = getBanlist cfg gid ∧
      lookupA (updateGo initiator gids cfg w).world gid = some g := by
  induction gids with
  | nil => intro cfg w gid g _ hm; simp at hm
  | cons gid1 rest ih =>
    intro cfg w gid g hnd hm hg hf
    rcases List.mem_cons.mp hm with heq | ht
    · subst heq
      rw [updateGo_cons_some _ _ _ _ _ _ hg]
      dsimp only
      obtain ⟨b1, b2, _, _, _⟩ :=
        processGuild_bansFail initiator gid cfg.banned g (getBanlist cfg gid) hf
      obtain ⟨a, b⟩ := updateGo_state_notmem initiator rest
        (setBanlist cfg gid
          (processGuild initiator gid cfg.banned g (getBanlist cfg gid)).2.1)
        (setA w gid (processGuild initiator gid cfg.banned g (getBanlist cfg gid)).1)
        gid (List.nodup_cons.mp hnd).1
      refine ⟨?_, ?_⟩
      · rw [a, getBanlist_setBanlist_self, b2]
      · rw [b, lookupA_setA_self, b1]
    · have hne : gid1 ≠ gid := by
        intro hc; subst hc; exact (List.nodup_cons.mp hnd).1 ht
      cases hg1 : lookupA w gid1 with
      | none =>
        rw [updateGo_cons_none _ _ _ _ _ hg1]
        exact ih cfg w gid g (List.nodup_cons.mp hnd).2 ht hg hf
      | some g1 =>
        rw [updateGo_cons_some _ _ _ _ _ _ hg1]
        dsimp only
        have hg2 : lookupA
            (setA w gid1
              (processGuild initiator gid1 cfg.banned g1 (getBanlist cfg gid1)).1)
            gid = some g := by
          rw [lookupA_setA_ne _ _ _ _ (Ne.symm hne)]; exact hg
        obtain ⟨a, b⟩ := ih
          (setBanlist cfg gid1
            (processGuild initiator gid1 cfg.banned g1 (getBanlist cfg gid1)).2.1)
          (setA w gid1
            (processGuild initiator gid1 cfg.banned g1 (getBanlist cfg gid1)).1)
          gid g (List.nodup_cons.mp hnd).2 ht hg2 hf
        refine ⟨?_, b⟩
        rw [a, getBanlist_setBanlist_ne _ _ _ _ (Ne.symm hne)]

lemma removeGuildLoop_unban_mem (cfg : Config) (gid : Nat) (g : GuildState)
    (snapshot : List Nat) :
    ∀ (cur : List Nat) (u : Nat),
      Event.unbanCall gid u ∈ (removeGuildLoop cfg gid g snapshot cur).2 →
      u ∈ snapshot ∧ u ∈ bannedKeys cfg ∧ Val.int u ∉ getBanlist cfg gid := by
  induction snapshot with
  | nil => intro cur u h; simp [removeGuildLoop] at h
  | cons user rest ih =>
    intro cur u h
    simp only [removeGuildLoop] at h
    by_cases hc : user ∉ bannedKeys cfg ∨ Val.int user ∈ getBanlist cfg gid
    · rw [if_pos hc] at h
      obtain ⟨h1, h2, h3⟩ := ih cur u h
      exact ⟨List.mem_cons_of_mem _ h1, h2, h3⟩
    · rw [if_neg hc] at h
      dsimp only at h
      rcases List.mem_cons.mp h with he | ht
      · rw [Event.unbanCall.injEq] at he
        obtain ⟨-, rfl⟩ := he
        push_neg at hc
        exact ⟨List.mem_cons_self _ _, hc.1, hc.2⟩
      · obtain ⟨h1, h2, h3⟩ := ih _ u ht
        exact ⟨List.mem_cons_of_mem _ h1, h2, h3⟩

lemma removeGuildLoop_keeps (cfg : Config) (gid : Nat) (g : GuildState)
    (snapshot : List Nat) :
    ∀ (cur : List Nat) (u : Nat),
      u ∈ cur → (u ∉ bannedKeys cfg ∨ Val.int u ∈ getBanlist cfg gid) →
      u ∈ (removeGuildLoop cfg gid g snapshot cur).1 := by
  induction snapshot with
  | nil => intro cur u hc _; simpa [removeGuildLoop] using hc
  | cons user rest ih =>
    intro cur u hc hu
    simp only [removeGuildLoop]
    by_cases hcond : user ∉ bannedKeys cfg ∨ Val.int user ∈ getBanlist cfg gid
    · rw [if_pos hcond]; exact ih cur u hc hu
    · rw [if_neg hcond]
      push_neg at hcond
      by_cases hforb : user ∈ g.unbanForbidden
      · rw [if_pos hforb]; exact ih cur u hc hu
      · rw [if_neg hforb]
        refine ih _ u ?_ hu
        have hne : u ≠ user := by
          rintro rfl
          rcases hu with h1 | h1
          · exact h1 hcond.1
          · exact hcond.2 h1
        exact (List.mem_erase_of_ne hne).mpr hc

lemma removeUserGo_config (uid : Nat) (gids : List Nat) :
    ∀ (cfg : Config) (w : World), (removeUserGo uid gids cfg w).config = cfg := by
  induction gids with
  | nil => intro cfg w; rfl
  | cons gid rest ih =>
    intro cfg w
    cases h : lookupA w gid with
    | none => simp only [removeUserGo, h]; exact ih cfg w
    | some g =>
      simp only [removeUserGo, h]
      split_ifs <;> (try dsimp only) <;> apply ih

end GlobalBan

namespace GlobalBan

/-- C2 (amended): running update_gbs a second time on the state a first
pass left behind issues zero ban calls, provided no ban attempt can fail
(no roster user is in the banForbidden or banNotFound list of a
reachable opted guild).  Without that proviso the claim is false, see
the counterexample: failed attempts leave the user unbanned and are
retried. -/
theorem update_gbs_idempotent_without_failures (initiator : String) (cfg : Config)
    (w : World) (h : noBanFailuresB cfg w = true) :
    countBanCalls
      (update_gbs initiator (update_gbs initiator cfg w).config
        (update_gbs initiator cfg w).world).trace = 0 := by
  have H : ∀ gid ∈ cfg.opted, ∀ g, lookupA w gid = some g →
      ∀ p ∈ cfg.banned, p.1 ∉ g.banForbidden ∧ p.1 ∉ g.banNotFound := by
    intro gid hgid g hg p hp
    unfold noBanFailuresB at h
    rw [List.all_eq_true] at h
    have h2 := h gid hgid
    simp only [hg] at h2
    rw [List.all_eq_true] at h2
    have h3 := h2 p hp
    simp at h3
    exact h3
  have Hpost := updateGo_post_banned initiator cfg.opted cfg w H
  obtain ⟨hbanned, hopted⟩ := updateGo_config initiator cfg.opted cfg w
  unfold update_gbs
  rw [hopted]
  apply updateGo_noBanCalls
  intro gid hgid g2 hg2
  rw [hbanned]
  exact Hpost gid hgid g2 hg2

/-- C2 (amended) witness: a concrete failure-free configuration on
which the second pass makes zero ban calls. -/
theorem update_gbs_idempotent_without_failures_witness :
    noBanFailuresB cfgC2w wC2w = true ∧
    countBanCalls
      (update_gbs alice (update_gbs alice cfgC2w wC2w).config
        (update_gbs alice cfgC2w wC2w).world).trace = 0 :=
  ⟨by decide, update_gbs_idempotent_without_failures alice cfgC2w wC2w (by decide)⟩

/-- C3 (amended): when enumerating the bans of an opted guild fails,
update_gbs logs the failure and skips only the current roster entry for
that guild; the enumeration is re-attempted once per roster entry, so
the guild sees one enumeration call and one logged exception per entry,
and no ban call, no banlist change and no guild state change occur for
it. -/
theorem update_gbs_enum_failure_per_entry (initiator : String) (cfg : Config)
    (w : World) (gid : Nat) (g : GuildState) (hnd : cfg.opted.Nodup)
    (hmem : gid ∈ cfg.opted) (hg : lookupA w gid = some g)
    (hf : g.bansFail = true) :
    (update_gbs initiator cfg w).trace.count (Event.bansCall gid) =
      cfg.banned.length ∧
    (update_gbs initiator cfg w).trace.count (Event.logExc gid) =
      cfg.banned.length ∧
    (∀ u s b, Event.banCall gid u s b ∉ (update_gbs initiator cfg w).trace) ∧
    getBanlist (update_gbs initiator cfg w).config gid = getBanlist cfg gid ∧
    lookupA (update_gbs initiator cfg w).world gid = some g := by
  obtain ⟨b1, b2, b3, b4, b5⟩ :=
    processGuild_bansFail initiator gid cfg.banned g (getBanlist cfg gid) hf
  refine ⟨?_, ?_, ?_, ?_, ?_⟩
  · unfold update_gbs
    rw [updateGo_count initiator cfg.opted cfg w (Event.bansCall gid) gid g rfl
      hnd hmem hg, b3]
  · unfold update_gbs
    rw [updateGo_count initiator cfg.opted cfg w (Event.logExc gid) gid g rfl
      hnd hmem hg, b4]
  · intro u s b hc
    have hcount := updateGo_count initiator cfg.opted cfg w
      (Event.banCall gid u s b) gid g rfl hnd hmem hg
    have hz : (processGuild initiator gid cfg.banned g
        (getBanlist cfg gid)).2.2.count (Event.banCall gid u s b) = 0 := by
      rw [List.count_eq_zero]
      intro hmm
      rcases b5 _ hmm with he | he <;> cases he
    exact (List.count_eq_zero.mp (hcount.trans hz)) hc
  · exact (updateGo_bansFail_state initiator cfg.opted cfg w gid g hnd hmem hg hf).1
  · exact (updateGo_bansFail_state initiator cfg.opted cfg w gid g hnd hmem hg hf).2

/-- C3 (amended) witness: the concrete two-entry roster with a failing
guild, instantiating the amended claim. -/
theorem update_gbs_enum_failure_per_entry_witness :
    cfgC3w.opted.Nodup ∧ 7 ∈ cfgC3w.opted ∧ lookupA wC3w 7 = some gC3w ∧
    gC3w.bansFail = true ∧
    ((update_gbs alice cfgC3w wC3w).trace.count (Event.bansCall 7) =
      cfgC3w.banned.length ∧
    (update_gbs alice cfgC3w wC3w).trace.count (Event.logExc 7) =
      cfgC3w.banned.length ∧
    (∀ u s b, Event.banCall 7 u s b ∉ (update_gbs alice cfgC3w wC3w).trace) ∧
    getBanlist (update_gbs alice cfgC3w wC3w).config 7 = getBanlist cfgC3w 7 ∧
    lookupA (update_gbs alice cfgC3w wC3w).world 7 = some gC3w) :=
  ⟨by decide, by decide, rfl, rfl,
    update_gbs_enum_failure_per_entry alice cfgC3w wC3w 7 gC3w (by decide)
      (by decide) rfl rfl⟩

/-- C9: a Forbidden answer to a single ban call is logged as a warning
and never aborts the loop — every reachable opted guild sees exactly
one bans enumeration attempt per roster entry (so all roster entries
are processed once per call), and every roster user whose ban attempt
is Forbidden gets a logged warning while the remaining work proceeds. -/
theorem update_gbs_forbidden_isolated (initiator : String) (cfg : Config)
    (w : World) (gid : Nat) (g : GuildState) (hnd : cfg.opted.Nodup)
    (hmem : gid ∈ cfg.opted) (hg : lookupA w gid = some g) :
    (update_gbs initiator cfg w).trace.count (Event.bansCall gid) =
      cfg.banned.length ∧
    (∀ uid s, (uid, s) ∈ cfg.banned → g.bansFail = false →
      (cfg.banned.map Prod.fst).Nodup → uid ∉ g.bans → uid ∈ g.banForbidden →
      (uid ∈ g.members ∨ uid ∉ g.banNotFound) →
      Event.logWarn gid uid ∈ (update_gbs initiator cfg w).trace) := by
  constructor
  · unfold update_gbs
    rw [updateGo_count initiator cfg.opted cfg w (Event.bansCall gid) gid g rfl
      hnd hmem hg,
      processGuild_bansCall_count initiator gid cfg.banned g (getBanlist cfg gid)]
  · intro uid s hmem2 hf hnd2 hb hforb hcase
    have hblock := processGuild_logWarn initiator gid cfg.banned g
      (getBanlist cfg gid) uid s hf hmem2 hnd2 hb hforb hcase
    have hcnt := updateGo_count initiator cfg.opted cfg w
      (Event.logWarn gid uid) gid g rfl hnd hmem hg
    have hnz : (processGuild initiator gid cfg.banned g
        (getBanlist cfg gid)).2.2.count (Event.logWarn gid uid) ≠ 0 := by
      intro hz
      exact (List.count_eq_zero.mp hz) hblock
    by_contra hnot
    exact hnz (hcnt.symm.trans (List.count_eq_zero.mpr hnot))

/-- C9 witness: two roster entries, one of them Forbidden; the guild
still sees two enumeration attempts and the Forbidden user is logged. -/
theorem update_gbs_forbidden_isolated_witness :
    cfgC9w.opted.Nodup ∧ 1 ∈ cfgC9w.opted ∧ lookupA wC9w 1 = some gC9w ∧
    ((update_gbs alice cfgC9w wC9w).trace.count (Event.bansCall 1) =
      cfgC9w.banned.length ∧
    (∀ uid s, (uid, s) ∈ cfgC9w.banned → gC9w.bansFail = false →
      (cfgC9w.banned.map Prod.fst).Nodup → uid ∉ gC9w.bans →
      uid ∈ gC9w.banForbidden → (uid ∈ gC9w.members ∨ uid ∉ gC9w.banNotFound) →
      Event.logWarn 1 uid ∈ (update_gbs alice cfgC9w wC9w).trace)) :=
  ⟨by decide, by decide, rfl,
    update_gbs_forbidden_isolated alice cfgC9w wC9w 1 gC9w (by decide)
      (by decide) rfl⟩

/-- C7: remove_gbs_guild unbans a user only when that user is currently
banned, the decimal form of the id is a key of the global roster, and
the integer id is not in the guild banlist (the protection check the
code performs); every other existing ban survives the call and is still
present in the resulting guild state. -/
theorem remove_gbs_guild_unban_only_roster (cfg : Config) (w : World) (gid : Nat)
    (g : GuildState) (res : RunResult) (hg : lookupA w gid = some g)
    (hok : remove_gbs_guild cfg w gid = Except.ok res) :
    (∀ u, Event.unbanCall gid u ∈ res.trace →
      u ∈ g.bans ∧ u ∈ bannedKeys cfg ∧ Val.int u ∉ getBanlist cfg gid) ∧
    (∀ u, u ∈ g.bans → (u ∉ bannedKeys cfg ∨ Val.int u ∈ getBanlist cfg gid) →
      ∃ g2, lookupA res.world gid = some g2 ∧ u ∈ g2.bans) := by
  by_cases hf : g.bansFail
  · have herr : remove_gbs_guild cfg w gid = Except.error PyErr.attributeError := by
      unfold remove_gbs_guild
      rw [hg]
      simp [hf]
    rw [herr] at hok
    cases hok
  · have heq : remove_gbs_guild cfg w gid =
        Except.ok
          ⟨cfg,
            setA w gid
              { g with bans := (removeGuildLoop cfg gid g g.bans g.bans).1 },
            (removeGuildLoop cfg gid g g.bans g.bans).2⟩ := by
      unfold remove_gbs_guild
      rw [hg]
      simp [hf]
    rw [heq] at hok
    have hres : res =
        ⟨cfg,
          setA w gid
            { g with bans := (removeGuildLoop cfg gid g g.bans g.bans).1 },
          (removeGuildLoop cfg gid g g.bans g.bans).2⟩ := by
      injection hok with h2
      exact h2.symm
    subst hres
    constructor
    · intro u hu
      exact removeGuildLoop_unban_mem cfg gid g g.bans g.bans u hu
    · intro u hub hcond
      exact ⟨_, lookupA_setA_self _ _ _,
        removeGuildLoop_keeps cfg gid g g.bans g.bans u hub hcond⟩

/-- C7 witness: a guild with bans on 42 (a roster user) and 43 (not on
the roster); only 42 is unbanned and 43 survives in the guild state. -/
theorem remove_gbs_guild_unban_only_roster_witness :
    lookupA wC7w 1 = some gC7w ∧
    remove_gbs_guild cfgC7w wC7w 1 = Except.ok resC7w ∧
    ((∀ u, Event.unbanCall 1 u ∈ resC7w.trace →
      u ∈ gC7w.bans ∧ u ∈ bannedKeys cfgC7w ∧ Val.int u ∉ getBanlist cfgC7w 1) ∧
    (∀ u, u ∈ gC7w.bans →
      (u ∉ bannedKeys cfgC7w ∨ Val.int u ∈ getBanlist cfgC7w 1) →
      ∃ g2, lookupA resC7w.world 1 = some g2 ∧ u ∈ g2.bans)) :=
  ⟨rfl, by decide,
    remove_gbs_guild_unban_only_roster cfgC7w wC7w 1 gC7w resC7w rfl (by decide)⟩

/-- C10: remove_gbs_user and remove_gbs_guild never modify the persisted
configuration — for every input the configuration after the call equals
the configuration before it (both operations only read the roster, the
opted list and the banlists, and issue provider calls). -/
theorem remove_ops_preserve_config (cfg : Config) (w : World) (uid gid : Nat) :
    (remove_gbs_user cfg w uid).config = cfg ∧
    cfgOfResult (remove_gbs_guild cfg w gid) cfg = cfg := by
  constructor
  · exact removeUserGo_config uid cfg.opted cfg w
  · unfold remove_gbs_guild cfgOfResult
    cases h : lookupA w gid with
    | none => rfl
    | some g =>
      by_cases hf : g.bansFail
      · simp [hf]
      · simp [hf]

end GlobalBan
